import Mathlib

/-!
Verification development for the pNode discovery-and-enrichment pipeline.

The definitions below are a shallow embedding of the TypeScript service
(`PNodeService` in `src/services/pnode.ts` and the `usePNodes` hook):
pure data transformations are embedded as Lean functions, network effects
are parametrized by explicit oracles/environments, and JavaScript
truthiness on strings and numbers is made explicit via small helpers.
-/

namespace Pnodes

/-! ## JavaScript-style helpers -/

/-- Truthiness of an optional string: `undefined`/`null` and `""` are falsy. -/
def strTruthy : Option String → Bool
  | none => false
  | some s => !(s == "")

/-- `a || b` on optional strings with JS falsiness. -/
def jsOrS (a b : Option String) : Option String :=
  if strTruthy a then a else b

/-- `x || null` on an optional string: empty strings collapse to `null`. -/
def jsToNull (a : Option String) : Option String :=
  if strTruthy a then a else none

/-- Digits of a decimal numeral folded into a `Nat`. -/
def digitsToNat (ds : List Char) : Nat :=
  ds.foldl (fun acc c => acc * 10 + (c.toNat - '0'.toNat)) 0

/-- `parseInt` on the strings this service feeds it (a leading run of decimal
digits; `none` models `NaN` when no digit leads the string). -/
def parseIntJs (s : String) : Option Nat :=
  match s.data.takeWhile Char.isDigit with
  | [] => none
  | ds => some (digitsToNat ds)

/-- `parseInt(portStr) || 9001`: both `NaN` and `0` are falsy and yield 9001. -/
def jsPortOr9001 (s : Option String) : Nat :=
  match s with
  | none => 9001
  | some str =>
    match parseIntJs str with
    | none => 9001
    | some n => if n = 0 then 9001 else n

/-- Split a character list at a separator (JS `String.prototype.split` with a
single-character separator: no empty-segment collapsing, `"" → [""]`). -/
def splitOnChar (sep : Char) : List Char → List (List Char)
  | [] => [[]]
  | c :: rest =>
    match splitOnChar sep rest with
    | [] => [[c]]
    | h :: t => if c = sep then [] :: h :: t else (c :: h) :: t

/-- `s.split(':')`. -/
def splitColon (s : String) : List String :=
  (splitOnChar ':' s.data).map String.mk

/-- `ip.replace(/\./g, '-')`. -/
def replaceDots (s : String) : String :=
  String.mk (s.data.map (fun c => if c = '.' then '-' else c))

/-- `s.startsWith(pre)`. -/
def startsWithLit (s pre : String) : Bool :=
  pre.data.isPrefixOf s.data

/-! ## Version Classifier (`isXandeumVersion`) -/

/-- The character class `[a-f0-9]` of the vNode regex. -/
def isLowerHexDigit (c : Char) : Bool :=
  c.isDigit || ('a' ≤ c && c ≤ 'f')

/-- Consume one expected literal character. -/
def eatChar (ch : Char) : List Char → Option (List Char)
  | [] => none
  | c :: cs => if c = ch then some cs else none

/-- Consume exactly `n` characters satisfying `p` (a `{n}`-quantified class). -/
def eatExact (p : Char → Bool) : Nat → List Char → Option (List Char)
  | 0, cs => some cs
  | _ + 1, [] => none
  | n + 1, c :: cs => if p c then eatExact p n cs else none

/-- Consume a maximal nonempty run of characters satisfying `p` (a `+`-quantified
class; maximal-munch is exact here because in both regexes the class is
disjoint from the character that follows it). -/
def eatMany1 (p : Char → Bool) (cs : List Char) : Option (List Char) :=
  if (cs.takeWhile p).isEmpty then none else some (cs.dropWhile p)

/-- `/^0\.\d{3}\.\d{5}$/.test` on the character list of the version string. -/
def pnodePattern (cs : List Char) : Bool :=
  match ((((eatChar '0' cs).bind (eatChar '.')).bind
      (eatExact Char.isDigit 3)).bind (eatChar '.')).bind (eatExact Char.isDigit 5) with
  | some [] => true
  | _ => false

/-- `/^\d+\.\d+\.\d+-[a-f0-9]{8}$/.test` on the character list. -/
def vnodePattern (cs : List Char) : Bool :=
  match (((((eatMany1 Char.isDigit cs).bind (eatChar '.')).bind
      (eatMany1 Char.isDigit)).bind (eatChar '.')).bind
      (eatMany1 Char.isDigit)).bind (eatChar '-') with
  | some tail => decide (tail.length = 8) && tail.all isLowerHexDigit
  | none => false

/-- `isXandeumVersion(version)`: falsy versions are rejected outright, then the
two anchored regexes are tried. -/
def isXandeumVersion : Option String → Bool
  | none => false
  | some v => if v = "" then false else pnodePattern v.data || vnodePattern v.data

/-- The spec's stable-release shape `0\.\d{3}\.\d{5}`, stated structurally:
a literal `0`, a dot, exactly three digits, a dot, exactly five digits. -/
def SpecStableRelease (cs : List Char) : Prop :=
  ∃ a b, cs = '0' :: '.' :: (a ++ '.' :: b) ∧ a.length = 3 ∧ b.length = 5 ∧
    (∀ c ∈ a, c.isDigit = true) ∧ (∀ c ∈ b, c.isDigit = true)

/-- The spec's development-build shape `\d+\.\d+\.\d+-[0-9a-f]{8}`, stated
structurally: three nonempty dot-separated digit runs, a hyphen, and an
8-character lowercase-hex suffix. -/
def SpecDevBuild (cs : List Char) : Prop :=
  ∃ a b c h, cs = a ++ '.' :: (b ++ '.' :: (c ++ '-' :: h)) ∧
    a ≠ [] ∧ b ≠ [] ∧ c ≠ [] ∧
    (∀ x ∈ a, x.isDigit = true) ∧ (∀ x ∈ b, x.isDigit = true) ∧
    (∀ x ∈ c, x.isDigit = true) ∧
    h.length = 8 ∧ (∀ x ∈ h, isLowerHexDigit x = true)

/-! ## Data model

`PNode` mirrors the TypeScript interface, restricted to the fields the
discovery pipeline ever writes (the remaining optional analytics fields are
never assigned by the service and stay `undefined`). `lastUpdate` timestamps
(`Date.now()`) are threaded as an explicit `now` parameter. -/

inductive Health where
  | healthy
  | unhealthy
  | unknown
deriving DecidableEq, Repr

structure GeoLocation where
  country : String
  countryCode : String
  city : String
  lat : Int
  lon : Int
deriving DecidableEq, Repr

structure PNode where
  pubkey : String
  gossipPort : Nat
  tpuPort : Nat
  rpcPort : Nat
  version : Option String
  health : Health
  latency : Option Nat
  lastUpdate : Nat
  isPNode : Bool
  ip : Option String
  location : Option GeoLocation
  featureSet : Option Nat
  shredVersion : Option Nat
deriving DecidableEq, Repr

/-- A raw entry of a `getClusterNodes` RPC result. -/
structure ClusterNodeInfo where
  pubkey : Option String
  gossip : Option String
  tpu : Option String
  rpc : Option String
  version : Option String
  featureSet : Option Nat
  shredVersion : Option Nat
deriving DecidableEq, Repr

/-- The fixed reference address list `KNOWN_PNODE_ADDRESSES`. -/
def KNOWN_PNODE_ADDRESSES : List String := [
  "157.173.125.223:9001",
  "157.173.197.106:9001",
  "161.156.85.177:9001",
  "194.238.24.91:9001",
  "157.173.197.103:9001",
  "194.238.24.87:9001",
  "154.38.175.38:9001",
  "194.238.24.94:9001",
  "194.238.24.96:9001",
  "37.60.250.209:9001",
  "37.60.255.42:9001",
  "194.238.24.95:9001",
  "38.242.207.242:9001",
  "109.199.96.218:9001",
  "194.238.24.97:9001",
  "160.202.38.95:9001"]

/-- `getAllPNodeAddresses()`: the reference list plus user-added custom
addresses. -/
def getAllPNodeAddresses (customPNodes : List String) : List String :=
  KNOWN_PNODE_ADDRESSES ++ customPNodes

/-- `addr.split(':')[1]` fed to `parseInt` (`NaN` modeled as 0; no claim
depends on a port parsed from a malformed address). -/
def portFromAddr (s : String) : Nat :=
  match (splitColon s).get? 1 with
  | some p => (parseIntJs p).getD 0
  | none => 0

/-! ## Cluster Discovery Strategy (`tryGetClusterNodesFromRpc`) -/

/-- `mapClusterNodeToPNode(node)`: the only place the version classifier
decides the `isPNode` kind; health is optimistically `healthy`. -/
def mapClusterNodeToPNode (now : Nat) (node : ClusterNodeInfo) : PNode :=
  let gossipParts : List String :=
    match node.gossip with
    | some g => splitColon g
    | none => []
  let rpcParts : List String :=
    match node.rpc with
    | some r => splitColon r
    | none => []
  let ip : String := (jsToNull (jsOrS (gossipParts.get? 0) (rpcParts.get? 0))).getD ""
  { pubkey := (jsOrS node.pubkey (some "")).getD ""
    gossipPort :=
      match gossipParts.get? 1 with
      | some s => if s = "" then 0 else (parseIntJs s).getD 0
      | none => 0
    tpuPort :=
      match node.tpu with
      | some t => if t = "" then 0 else portFromAddr t
      | none => 0
    rpcPort :=
      match rpcParts.get? 1 with
      | some s => if s = "" then 9001 else (parseIntJs s).getD 0
      | none => 9001
    version := jsToNull node.version
    health := Health.healthy
    latency := none
    lastUpdate := now
    isPNode := isXandeumVersion node.version
    ip := some ip
    location := none
    featureSet := node.featureSet
    shredVersion := node.shredVersion }

/-- The IP-only projection of the reference address list (`knownIps`). -/
def knownIps : List String :=
  KNOWN_PNODE_ADDRESSES.map (fun a => (splitColon a).headD "")

/-- `node.gossip?.split(':')[0] || node.rpc?.split(':')[0]` followed by
`ip && knownIps.has(ip)`. -/
def clusterNodeHasKnownIp (n : ClusterNodeInfo) : Bool :=
  let g0 : Option String := n.gossip.map (fun g => (splitColon g).headD "")
  let r0 : Option String := n.rpc.map (fun r => (splitColon r).headD "")
  match jsOrS g0 r0 with
  | some ip => if ip = "" then false else knownIps.contains ip
  | none => false

/-- One `Map.set` step: replacing an existing key keeps its position,
otherwise the pair is appended (JS `Map` insertion order). -/
def mapSet (m : List (String × ClusterNodeInfo)) (k : String) (v : ClusterNodeInfo) :
    List (String × ClusterNodeInfo) :=
  if m.any (fun p => decide (p.1 = k)) then
    m.map (fun p => if p.1 = k then (k, v) else p)
  else m ++ [(k, v)]

/-- The `combinedNodes` map: version-classified nodes first, then known-IP
nodes, keyed by `pubkey`; entries with a falsy `pubkey` are skipped. -/
def combinedPairs (l : List ClusterNodeInfo) : List (String × ClusterNodeInfo) :=
  ((l.filter (fun n => isXandeumVersion n.version)) ++
      (l.filter clusterNodeHasKnownIp)).foldl
    (fun m n =>
      match n.pubkey with
      | some pk => if pk = "" then m else mapSet m pk n
      | none => m)
    []

/-- The per-response body of `tryGetClusterNodesFromRpc`: filter the raw
array, and fall back to the entire array when the filtered union is empty. -/
def tryGetClusterNodesFromRpc (now : Nat) (l : List ClusterNodeInfo) : List PNode :=
  let pnodes := (combinedPairs l).map Prod.snd
  if pnodes.isEmpty then l.map (mapClusterNodeToPNode now)
  else pnodes.map (mapClusterNodeToPNode now)

/-! ## Direct-Query Fallback Strategy (`getPnodeGossip`, fallback path)

Each address's four RPC calls are parametrized by an oracle giving the
(possibly `null`) responses and their measured latencies. -/

/-- A `getHealth` result: the string `'ok'`, some other string, or an object
with an optional `status` field. -/
inductive HealthResp where
  | str (s : String)
  | obj (status : Option String)
deriving DecidableEq, Repr

/-- `healthResult.result === 'ok' || (typeof r === 'object' && r?.status === 'ok')`. -/
def healthRespOk : HealthResp → Bool
  | HealthResp.str s => s = "ok"
  | HealthResp.obj st => st = some "ok"

/-- A `getVersion` result object. -/
structure VersionResp where
  solanaCore : Option String
  version : Option String
deriving DecidableEq, Repr

/-- A `getIdentity` result object. -/
structure IdentityResp where
  identity : Option String
  pubkey : Option String
deriving DecidableEq, Repr

/-- The four per-address responses (`none` = the call returned no result:
timeout, network failure, or RPC error) with their measured latencies. -/
structure AddrResponses where
  health : Option HealthResp
  version : Option VersionResp
  identity : Option IdentityResp
  cluster : Option (List ClusterNodeInfo)
  healthLatency : Nat
  versionLatency : Nat
  identityLatency : Nat
deriving DecidableEq, Repr

/-- An address whose four calls all return `null`. -/
def noResponses : AddrResponses :=
  { health := none, version := none, identity := none, cluster := none,
    healthLatency := 0, versionLatency := 0, identityLatency := 0 }

/-- The synthesized identity key ``pnode-${ip.replace(/\./g, '-')}-${port}``. -/
def synthPubkey (ip : String) (port : Nat) : String :=
  "pnode-" ++ replaceDots ip ++ "-" ++ toString port

/-- What one address contributes: its node record, any neighbor list from
`getClusterNodes`, the unused `reachable` flag, and how much it added to the
`connectedCount` accumulator. -/
structure DirectOutcome where
  node : PNode
  clusterNodes : Option (List ClusterNodeInfo)
  reachable : Bool
  connectedDelta : Nat
deriving DecidableEq, Repr

/-- The per-address body of the fallback batch worker: health precedence,
latency from the first non-null call in order health/version/identity,
identity key or synthesized key, and `isPNode` fixed to `true`. -/
def directQueryAddress (now : Nat) (addr : String) (r : AddrResponses) : DirectOutcome :=
  let parts := splitColon addr
  let ip : String := parts.headD ""
  let port : Nat := jsPortOr9001 (parts.get? 1)
  let st0 : Health × Option Nat × Nat :=
    match r.health with
    | some hr =>
      ((if healthRespOk hr then Health.healthy else Health.unhealthy),
        some r.healthLatency, 1)
    | none => (Health.unknown, none, 0)
  let version : Option String :=
    match r.version with
    | some vr => jsToNull (jsOrS vr.solanaCore vr.version)
    | none => none
  let st1 : Health × Option Nat × Nat :=
    match r.version with
    | some _ =>
      ((if st0.1 = Health.unknown then Health.healthy else st0.1),
        (if st0.2.1 = none then some r.versionLatency else st0.2.1),
        st0.2.2 + 1)
    | none => st0
  let identity : Option String :=
    match r.identity with
    | some ir => jsToNull (jsOrS ir.identity ir.pubkey)
    | none => none
  let st2 : Health × Option Nat :=
    match r.identity with
    | some _ =>
      ((if st1.1 = Health.unknown then Health.healthy else st1.1),
        (if st1.2.1 = none then some r.identityLatency else st1.2.1))
    | none => (st1.1, st1.2.1)
  let health : Health :=
    match r.cluster with
    | some _ => if st2.1 = Health.unknown then Health.healthy else st2.1
    | none => st2.1
  let pubkey : String := (jsToNull identity).getD (synthPubkey ip port)
  { node :=
      { pubkey := pubkey
        gossipPort := port
        tpuPort := 0
        rpcPort := port
        version := version
        health := health
        latency := st2.2
        lastUpdate := now
        isPNode := true
        ip := some ip
        location := none
        featureSet := none
        shredVersion := none }
    clusterNodes := r.cluster
    reachable := health ≠ Health.unknown
    connectedDelta := st1.2.2 }

/-- A neighbor entry discovered via an address's `getClusterNodes` response
(`isPNode` fixed to `true`, health `unknown`). -/
def neighborNodeToPNode (now : Nat) (pk : String) (cn : ClusterNodeInfo) : PNode :=
  { pubkey := pk
    gossipPort :=
      match cn.gossip with
      | some g => if g = "" then 0 else portFromAddr g
      | none => 0
    tpuPort :=
      match cn.tpu with
      | some t => if t = "" then 0 else portFromAddr t
      | none => 0
    rpcPort :=
      match cn.rpc with
      | some r => if r = "" then 9001 else portFromAddr r
      | none => 9001
    version := jsToNull cn.version
    health := Health.unknown
    latency := none
    lastUpdate := now
    isPNode := true
    ip := cn.gossip.map (fun g => (splitColon g).headD "")
    location := none
    featureSet := cn.featureSet
    shredVersion := cn.shredVersion }

/-- Append the neighbors of one address's `getClusterNodes` response: an
entry is added only when its `pubkey` is truthy and not already present. -/
def addNeighbors (now : Nat) (nodes : List PNode) (cl : List ClusterNodeInfo) :
    List PNode :=
  cl.foldl
    (fun acc cn =>
      match cn.pubkey with
      | some pk =>
        if pk = "" then acc
        else if acc.any (fun n => decide (n.pubkey = pk)) then acc
        else acc ++ [neighborNodeToPNode now pk cn]
      | none => acc)
    nodes

/-- The fallback collection loop over all addresses. Batching (8 at a time)
only bounds concurrency; results are appended in address-list order with each
address's neighbors following its own record, which this sequential fold
reproduces exactly. Returns the raw `nodes` array and `connectedCount`. -/
def fallbackCollect (now : Nat) (addresses : List String)
    (oracle : String → AddrResponses) : List PNode × Nat :=
  addresses.foldl
    (fun acc addr =>
      let r := directQueryAddress now addr (oracle addr)
      let withNode := acc.1 ++ [r.node]
      let withNeighbors :=
        match r.clusterNodes with
        | some cl => addNeighbors now withNode cl
        | none => withNode
      (withNeighbors, acc.2 + r.connectedDelta))
    ([], 0)

/-! ## Merge/Dedup Engine (the `uniqueNodes` map of `getPnodeGossip`) -/

/-- The resolution condition: the incoming record replaces the existing one
when it is healthy and the existing is not, or when it carries a latency and
the existing does not. -/
def moreInfo (node existing : PNode) : Bool :=
  (node.health = Health.healthy && !(existing.health = Health.healthy)) ||
    (!(node.latency = none) && existing.latency = none)

/-- One `uniqueNodes.set` step of the dedup fold (replacement keeps the
original insertion position, as a JS `Map` does). -/
def dedupInsert (m : List PNode) (node : PNode) : List PNode :=
  match m.find? (fun p => decide (p.pubkey = node.pubkey)) with
  | none => m ++ [node]
  | some existing =>
    if moreInfo node existing then
      m.map (fun p => if p.pubkey = node.pubkey then node else p)
    else m

/-- `Deduplicate by pubkey` fold at the end of `getPnodeGossip`. -/
def dedupByPubkey (nodes : List PNode) : List PNode :=
  nodes.foldl dedupInsert []

/-- `this.lastError` as set at the end of the fallback path. -/
def lastErrorOf (nodes : List PNode) (connectedCount : Nat) : Option String :=
  if connectedCount = 0 ∧ 0 < nodes.length then
    some ("Unable to reach any of the " ++ toString nodes.length ++
      " known pNodes. The RPC ports may be firewalled or require authentication.")
  else none

/-- The whole fallback path of `getPnodeGossip`: collected nodes deduplicated
by pubkey, the reachable counter, and the recorded diagnostic error. -/
def getPnodeGossipFallback (now : Nat) (addresses : List String)
    (oracle : String → AddrResponses) : List PNode × Nat × Option String :=
  let c := fallbackCollect now addresses oracle
  (dedupByPubkey c.1, c.2, lastErrorOf c.1 c.2)

/-- `getPnodeGossip` itself: cluster-discovery results (when non-null and
non-empty) short-circuit the fallback. -/
def getPnodeGossip (now : Nat) (rpcNodes : Option (List PNode))
    (addresses : List String) (oracle : String → AddrResponses) : List PNode :=
  match rpcNodes with
  | some l => if l.length > 0 then l else (getPnodeGossipFallback now addresses oracle).1
  | none => (getPnodeGossipFallback now addresses oracle).1

/-! ## RPC Client (`rpcCallToNode`)

One call is parametrized by an environment describing what each `await`ed
transport attempt does. `FetchEvt.throws` models a thrown exception (timeout
abort, network failure, CORS block, or a `json()` parse failure); its `match`
arm below is the corresponding `catch` block, so the embedding makes every
throw and every handler explicit. -/

inductive Transport where
  | relay
  | direct
deriving DecidableEq, Repr

/-- Outcome of one `fetch` + `json()` attempt. -/
inductive FetchEvt (T : Type) where
  | throws
  | notOk
  | ok (error : Option Int) (result : Option T)
deriving DecidableEq, Repr

/-- The environment of one `rpcCallToNode` call: behavior of the relay (local
proxy) attempt and of the direct attempt, plus the elapsed-time readings taken
at each measurement point. -/
structure RpcEnv (T : Type) where
  proxy : FetchEvt T
  direct : FetchEvt T
  proxyElapsed : Nat
  directElapsed : Nat
  finalElapsed : Nat
deriving DecidableEq, Repr

/-- `rpcCallToNode(address, method, params, timeout)`: relay attempt first
unless the relay is known unavailable, then the direct attempt; every failure
mode is caught and surfaced as a `(null, elapsed)` value. The returned triple
is the updated `localProxyAvailable` flag, the transports attempted (in
order), and the `{result, latency}` value; the `Except` layer carries any
exception that would escape to the caller. -/
def rpcCallToNode {T : Type} (avail : Option Bool) (env : RpcEnv T) :
    Except Unit (Option Bool × List Transport × (Option T × Nat)) :=
  let proxyPhase : Option Bool × List Transport × Option (Option T × Nat) :=
    if avail ≠ some false then
      match env.proxy with
      | FetchEvt.throws =>
        ((if avail = none then some false else avail), [Transport.relay], none)
      | FetchEvt.notOk => (avail, [Transport.relay], none)
      | FetchEvt.ok e r =>
        if e = none then (some true, [Transport.relay], some (r, env.proxyElapsed))
        else (avail, [Transport.relay], some (none, env.proxyElapsed))
    else (avail, [], none)
  match proxyPhase with
  | (avail', trace, some pair) => Except.ok (avail', trace, pair)
  | (avail', trace, none) =>
    match env.direct with
    | FetchEvt.throws =>
      Except.ok (avail', trace ++ [Transport.direct], (none, env.finalElapsed))
    | FetchEvt.notOk =>
      Except.ok (avail', trace ++ [Transport.direct], (none, env.finalElapsed))
    | FetchEvt.ok e r =>
      if e = none then
        Except.ok (avail', trace ++ [Transport.direct], (r, env.directElapsed))
      else Except.ok (avail', trace ++ [Transport.direct], (none, env.finalElapsed))

/-- `true` exactly on `Except.ok`. -/
def exceptOk {ε α : Type} : Except ε α → Bool
  | Except.ok _ => true
  | Except.error _ => false

/-- Trace projection of an `rpcCallToNode` return. -/
def rpcTrace {T : Type} (x : Except Unit (Option Bool × List Transport × (Option T × Nat))) :
    List Transport :=
  match x with
  | Except.ok (_, t, _) => t
  | Except.error _ => []

/-- Result projection of an `rpcCallToNode` return. -/
def rpcResult {T : Type} (x : Except Unit (Option Bool × List Transport × (Option T × Nat))) :
    Option T :=
  match x with
  | Except.ok (_, _, p) => p.1
  | Except.error _ => none

/-! ## Geo Enrichment Pipeline -/

/-- The truthiness filter `nodes.filter(n => n.ip)`. -/
def ipTruthy : Option String → Bool
  | none => false
  | some s => !(s == "")

/-- `sortedNodes.filter(n => n.ip).slice(0, 17)`: the enrichment candidates. -/
def selectGeoCandidates (nodes : List PNode) : List PNode :=
  (nodes.filter (fun n => ipTruthy n.ip)).take 17

/-- The reject-list guard at the top of `getGeoLocation`. -/
def geoBlocked (ip : String) : Bool :=
  ip = "" || ip = "0.0.0.0" || ip = "127.0.0.1" ||
    startsWithLit ip "10." || startsWithLit ip "192.168."

/-- `getGeoLocation(ip)`: blocked addresses short-circuit to `null`; otherwise
the third-party lookup (modeled by `geoApi`; `none` covers a non-success
status and thrown transport errors alike). -/
def getGeoLocation (geoApi : String → Option GeoLocation) (ip : String) :
    Option GeoLocation :=
  if geoBlocked ip then none else geoApi ip

/-- `updated[index] = {...updated[index], location}` (no-op out of bounds). -/
def updateLocation : List PNode → Nat → GeoLocation → List PNode
  | [], _, _ => []
  | n :: rest, 0, loc => { n with location := some loc } :: rest
  | n :: rest, i + 1, loc => n :: updateLocation rest i loc

/-- One awaited `enrichNodeWithGeo(node, idx)` call: `!node.ip` returns
early, a failed or blocked lookup leaves the list unchanged, and a successful
lookup rewrites the entry at the index found by pubkey in the cycle's
original `sortedNodes` array. -/
def geoStep (sortedNodes : List PNode) (geoApi : String → Option GeoLocation)
    (cur : List PNode) (node : PNode) : List PNode :=
  match node.ip with
  | none => cur
  | some ip =>
    if ip = "" then cur
    else
      match getGeoLocation geoApi ip with
      | none => cur
      | some loc =>
        match sortedNodes.findIdx? (fun n => decide (n.pubkey = node.pubkey)) with
        | some idx => updateLocation cur idx loc
        | none => cur

/-- One full enrichment cycle over the published node list, applying the
selected candidates' updates in order. -/
def runGeoCycle (sortedNodes : List PNode) (geoApi : String → Option GeoLocation) :
    List PNode :=
  (selectGeoCandidates sortedNodes).foldl (geoStep sortedNodes geoApi) sortedNodes

/-- The enrichment loop's event trace: request `i`, then a 1500 ms pause
whenever `i < n - 1` (`n` = number of selected candidates). The `await` on
each request before the next loop step makes the trace strictly sequential. -/
inductive GeoEvent where
  | request (i : Nat)
  | pause (ms : Nat)
deriving DecidableEq, Repr

/-- The schedule emitted by `for (let i = 0; i < n; i++) { await enrich(i);
if (i < n - 1) await sleep(1500); }`. -/
def enrichSchedule (n : Nat) : List GeoEvent :=
  (List.range n).foldl
    (fun acc i =>
      acc ++ [GeoEvent.request i] ++ (if i < n - 1 then [GeoEvent.pause 1500] else []))
    []

/-- The spec's description of the same schedule: a pause after every request
but the last. -/
def pausedSchedule (n : Nat) : List GeoEvent :=
  ((List.range (n - 1)).flatMap (fun i => [GeoEvent.request i, GeoEvent.pause 1500])) ++
    [GeoEvent.request (n - 1)]

/-! ## Refresh Orchestrator (`refreshNodes` in `usePNodes`) -/

inductive ConnStatus where
  | connected
  | connecting
  | disconnected
  | error
deriving DecidableEq, Repr

structure NetworkStatsVals where
  totalNodes : Nat
  healthyNodes : Nat
  avgLatency : Nat
  tps : Nat
  currentSlot : Nat
deriving DecidableEq, Repr

/-- `Math.round(sum / len)` on non-negative integers (round half up). -/
def jsRoundDiv (sum len : Nat) : Nat :=
  (2 * sum + len) / (2 * len)

/-- `healthOrder` of the refresh sort comparator. -/
def healthOrderVal : Health → Nat
  | Health.healthy => 0
  | Health.unknown => 1
  | Health.unhealthy => 2

/-- The comparator as a total order test: pNodes first, then by health rank
(ties keep encounter order; the engine's sort is stable). -/
def nodeSortLe (a b : PNode) : Bool :=
  if a.isPNode && !b.isPNode then true
  else if !a.isPNode && b.isPNode then false
  else healthOrderVal a.health ≤ healthOrderVal b.health

/-- `fetchedNodes.sort(...)` as a stable sort under the comparator. -/
def sortNodes (l : List PNode) : List PNode :=
  l.mergeSort nodeSortLe

/-- The aggregate statistics computed right after a successful discovery. -/
def computeStats (sorted : List PNode) : NetworkStatsVals :=
  let healthyCount := (sorted.filter (fun n => decide (n.health = Health.healthy))).length
  let nodesWithLatency := sorted.filter (fun n => !(n.latency = none))
  let avgLatency :=
    if 0 < nodesWithLatency.length then
      jsRoundDiv ((nodesWithLatency.map (fun n => n.latency.getD 0)).sum)
        nodesWithLatency.length
    else 0
  { totalNodes := sorted.length
    healthyNodes := healthyCount
    avgLatency := avgLatency
    tps := 0
    currentSlot := 0 }

/-- The pieces of hook state a refresh cycle reads and writes. -/
structure RefreshState where
  nodes : List PNode
  stats : NetworkStatsVals
deriving DecidableEq, Repr

/-- What one `refreshNodes` cycle decides once discovery has produced
`fetched`: the connection status it settles on, the stats and node list it
publishes, and whether the enrichment stage runs. -/
structure RefreshOutcome where
  status : ConnStatus
  stats : NetworkStatsVals
  nodes : List PNode
  enteredEnrichment : Bool
deriving DecidableEq, Repr

/-- The settled outcome of `refreshNodes` as a function of the previous hook
state and the discovery result: an empty `fetched` returns early with status
`error` and touches neither `nodes` nor `stats`; otherwise the sorted list and
fresh stats are published and enrichment starts. -/
def refreshNodesStep (prev : RefreshState) (fetched : List PNode) : RefreshOutcome :=
  if fetched.isEmpty then
    { status := ConnStatus.error, stats := prev.stats, nodes := prev.nodes,
      enteredEnrichment := false }
  else
    let sorted := sortNodes fetched
    { status := ConnStatus.connected, stats := computeStats sorted, nodes := sorted,
      enteredEnrichment := true }

/-! ## Claim-side definitions (from the spec's words, for comparison) -/

/-- Modelled from the spec: the reachable count as claim C5 words it — the
number of addresses that produced any non-null response to any of the four
RPC methods. Compare with the `connectedDelta` accumulation of
`fallbackCollect`. -/
def specReachableCount (addresses : List String) (oracle : String → AddrResponses) : Nat :=
  (addresses.filter
    (fun a =>
      (oracle a).health.isSome || (oracle a).version.isSome ||
        (oracle a).identity.isSome || (oracle a).cluster.isSome)).length

/-! ## Concrete inputs used by counterexamples and witnesses -/

/-- A record as the fallback can produce it: healthy (e.g. via a
`getClusterNodes`-only response) with no measured latency. -/
def exHealthyNoLat : PNode :=
  { pubkey := "K", gossipPort := 9001, tpuPort := 0, rpcPort := 9001,
    version := none, health := Health.healthy, latency := none, lastUpdate := 0,
    isPNode := true, ip := some "1.2.3.4", location := none, featureSet := none,
    shredVersion := none }

/-- Same identity key, unhealthy, but with a measured latency. -/
def exUnhealthyLat : PNode :=
  { exHealthyNoLat with health := Health.unhealthy, latency := some 42 }

/-- Same identity key, unknown health, no latency. -/
def exUnknownNoLat : PNode :=
  { exHealthyNoLat with health := Health.unknown }

/-- A node whose address is the loopback address. -/
def exLoopbackNode : PNode :=
  { exHealthyNoLat with pubkey := "L", ip := some "127.0.0.1" }

/-- An address answering only `getVersion`, with a plain Solana version. -/
def exVersionOnlyResp : AddrResponses :=
  { noResponses with version := some { solanaCore := some "1.18.2", version := none } }

/-- An address answering only `getIdentity`. -/
def exIdentityOnlyResp : AddrResponses :=
  { noResponses with identity := some { identity := some "idA", pubkey := none } }

/-- A previous hook state with non-zero published statistics. -/
def exPrevState : RefreshState :=
  { nodes := [exHealthyNoLat],
    stats :=
      { totalNodes := 5, healthyNodes := 3, avgLatency := 100, tps := 0, currentSlot := 0 } }

/-- A cluster entry with a Xandeum pNode version. -/
def exClusterXand : ClusterNodeInfo :=
  { pubkey := some "abc", gossip := some "1.2.3.4:8001", tpu := none, rpc := none,
    version := some "0.806.30102", featureSet := none, shredVersion := none }

/-- A cluster entry with a plain Solana version and unknown IP. -/
def exClusterPlain : ClusterNodeInfo :=
  { pubkey := some "xyz", gossip := some "9.9.9.9:8001", tpu := none, rpc := none,
    version := some "1.18.2", featureSet := none, shredVersion := none }

/-- An RPC environment in which both transports throw. -/
def exRpcEnvFail : RpcEnv Nat :=
  { proxy := FetchEvt.throws, direct := FetchEvt.throws, proxyElapsed := 5,
    directElapsed := 7, finalElapsed := 12 }

/-- A sample geo lookup result. -/
def exLoc : GeoLocation :=
  { country := "Testland", countryCode := "TL", city := "Testville", lat := 1, lon := 2 }

/-- The synthesized identity key an all-null address ends up with, expressed
directly in terms of the address string (same ip/port extraction as
`directQueryAddress`). -/
def synthKeyOfAddr (a : String) : String :=
  synthPubkey ((splitColon a).headD "") (jsPortOr9001 ((splitColon a).get? 1))

end Pnodes

namespace Pnodes

theorem eatChar_eq_some {ch : Char} {cs r : List Char} :
    eatChar ch cs = some r ↔ cs = ch :: r := by
  cases cs with
  | nil => simp [eatChar]
  | cons c t =>
    simp only [eatChar]
    by_cases h : c = ch
    · subst h; simp
    · simp [h]

theorem eatExact_eq_some {p : Char → Bool} :
    ∀ {n : Nat} {cs r : List Char},
      eatExact p n cs = some r ↔
        ∃ a, cs = a ++ r ∧ a.length = n ∧ ∀ c ∈ a, p c = true := by
  intro n
  induction n with
  | zero =>
    intro cs r
    simp only [eatExact, Option.some.injEq]
    constructor
    · rintro rfl; exact ⟨[], by simp, rfl, by simp⟩
    · rintro ⟨a, rfl, ha, _⟩
      have ha' : a = [] := List.length_eq_zero.mp ha
      subst ha'; simp
  | succ n ih =>
    intro cs r
    cases cs with
    | nil =>
      simp only [eatExact]
      constructor
      · intro h; cases h
      · rintro ⟨a, h, ha, _⟩
        cases a with
        | nil => simp at ha
        | cons x xs => simp at h
    | cons c t =>
      simp only [eatExact]
      by_cases hp : p c = true
      · rw [if_pos hp, ih]
        constructor
        · rintro ⟨a, rfl, ha, hall⟩
          refine ⟨c :: a, rfl, by simp [ha], ?_⟩
          intro y hy
          rcases List.mem_cons.mp hy with rfl | hy
          · exact hp
          · exact hall y hy
        · rintro ⟨a, h, ha, hall⟩
          cases a with
          | nil => simp at ha
          | cons x xs =>
            rw [List.cons_append] at h
            obtain ⟨hxc, htr⟩ := List.cons.inj h
            refine ⟨xs, htr, by simpa using ha, ?_⟩
            exact fun y hy => hall y (List.mem_cons_of_mem _ hy)
      · rw [if_neg hp]
        constructor
        · intro h; cases h
        · rintro ⟨a, h, ha, hall⟩
          cases a with
          | nil => simp at ha
          | cons x xs =>
            rw [List.cons_append] at h
            obtain ⟨hxc, -⟩ := List.cons.inj h
            rw [hxc] at hp
            exact absurd (hall x (by simp)) hp

theorem eatMany1_eq_some {p : Char → Bool} {cs r : List Char} :
    eatMany1 p cs = some r ↔ cs.takeWhile p ≠ [] ∧ r = cs.dropWhile p := by
  unfold eatMany1
  by_cases h : (cs.takeWhile p).isEmpty
  · rw [if_pos h]
    have he : cs.takeWhile p = [] := List.isEmpty_iff.mp h
    simp [he]
  · rw [if_neg h]
    have h' : cs.takeWhile p ≠ [] := fun he => h (List.isEmpty_iff.mpr he)
    simp [h', Option.some.injEq, eq_comm]

theorem mem_takeWhile_sat {p : Char → Bool} :
    ∀ {l : List Char} {x : Char}, x ∈ l.takeWhile p → p x = true := by
  intro l
  induction l with
  | nil => intro x hx; simp at hx
  | cons c t ih =>
    intro x hx
    by_cases hc : p c = true
    · rw [List.takeWhile_cons_of_pos hc] at hx
      rcases List.mem_cons.mp hx with rfl | hx
      · exact hc
      · exact ih hx
    · rw [List.takeWhile_cons_of_neg hc] at hx
      simp at hx

theorem takeWhile_append_run {p : Char → Bool} {c : Char} (hc : ¬ p c = true) :
    ∀ {a t : List Char}, (∀ x ∈ a, p x = true) →
      (a ++ c :: t).takeWhile p = a ∧ (a ++ c :: t).dropWhile p = c :: t := by
  intro a
  induction a with
  | nil =>
    intro t _
    constructor
    · simpa using List.takeWhile_cons_of_neg (l := t) hc
    · simpa using List.dropWhile_cons_of_neg (l := t) hc
  | cons x xs ih =>
    intro t ha
    have hx : p x = true := ha x (by simp)
    have hxs : ∀ y ∈ xs, p y = true := fun y hy => ha y (List.mem_cons_of_mem _ hy)
    constructor
    · rw [List.cons_append, List.takeWhile_cons_of_pos hx, (ih (t := t) hxs).1]
    · rw [List.cons_append, List.dropWhile_cons_of_pos hx, (ih (t := t) hxs).2]

theorem pnodePattern_iff {cs : List Char} :
    pnodePattern cs = true ↔ SpecStableRelease cs := by
  unfold pnodePattern
  constructor
  · intro h
    rcases hch : ((((eatChar '0' cs).bind (eatChar '.')).bind
        (eatExact Char.isDigit 3)).bind (eatChar '.')).bind (eatExact Char.isDigit 5) with
        _ | tail
    · rw [hch] at h; cases h
    · cases tail with
      | cons x xs => rw [hch] at h; cases h
      | nil =>
        obtain ⟨r4, hC, h5⟩ := Option.bind_eq_some.mp hch
        obtain ⟨r3, hD, hdot2⟩ := Option.bind_eq_some.mp hC
        obtain ⟨r2, hE, hex3⟩ := Option.bind_eq_some.mp hD
        obtain ⟨r1, h0, hdot1⟩ := Option.bind_eq_some.mp hE
        obtain ⟨a, ha, ha3, hda⟩ := eatExact_eq_some.mp hex3
        obtain ⟨b, hb, hb5, hdb⟩ := eatExact_eq_some.mp h5
        rw [eatChar_eq_some] at h0 hdot1 hdot2
        refine ⟨a, b, ?_, ha3, hb5, hda, hdb⟩
        subst h0 hdot1 ha hdot2
        simp at hb
        rw [hb]
  · rintro ⟨a, b, rfl, ha3, hb5, hda, hdb⟩
    have h0 : eatChar '0' ('0' :: '.' :: (a ++ '.' :: b)) =
        some ('.' :: (a ++ '.' :: b)) := eatChar_eq_some.mpr rfl
    have hd1 : eatChar '.' ('.' :: (a ++ '.' :: b)) = some (a ++ '.' :: b) :=
      eatChar_eq_some.mpr rfl
    have hex3 : eatExact Char.isDigit 3 (a ++ '.' :: b) = some ('.' :: b) :=
      eatExact_eq_some.mpr ⟨a, rfl, ha3, hda⟩
    have hd2 : eatChar '.' ('.' :: b) = some b := eatChar_eq_some.mpr rfl
    have h5 : eatExact Char.isDigit 5 b = some [] :=
      eatExact_eq_some.mpr ⟨b, by simp, hb5, hdb⟩
    rw [h0, Option.some_bind, hd1, Option.some_bind, hex3, Option.some_bind,
      hd2, Option.some_bind, h5]

theorem vnodePattern_iff {cs : List Char} :
    vnodePattern cs = true ↔ SpecDevBuild cs := by
  unfold vnodePattern
  constructor
  · intro h
    rcases hch : (((((eatMany1 Char.isDigit cs).bind (eatChar '.')).bind
        (eatMany1 Char.isDigit)).bind (eatChar '.')).bind
        (eatMany1 Char.isDigit)).bind (eatChar '-') with _ | tail
    · rw [hch] at h; cases h
    · rw [hch] at h
      simp only [Bool.and_eq_true, decide_eq_true_eq, List.all_eq_true] at h
      obtain ⟨r5, hC, hdash⟩ := Option.bind_eq_some.mp hch
      obtain ⟨r4, hD, hm3⟩ := Option.bind_eq_some.mp hC
      obtain ⟨r3, hE, hdot2⟩ := Option.bind_eq_some.mp hD
      obtain ⟨r2, hF, hm2⟩ := Option.bind_eq_some.mp hE
      obtain ⟨r1, hm1, hdot1⟩ := Option.bind_eq_some.mp hF
      rw [eatChar_eq_some] at hdot1 hdot2 hdash
      obtain ⟨h1ne, h1d⟩ := eatMany1_eq_some.mp hm1
      obtain ⟨h2ne, h2d⟩ := eatMany1_eq_some.mp hm2
      obtain ⟨h3ne, h3d⟩ := eatMany1_eq_some.mp hm3
      have e4 : r4 = r4.takeWhile Char.isDigit ++ '-' :: tail := by
        conv_lhs => rw [← List.takeWhile_append_dropWhile (p := Char.isDigit) (l := r4),
          ← h3d, hdash]
      have e2 : r2 = r2.takeWhile Char.isDigit ++
          '.' :: (r4.takeWhile Char.isDigit ++ '-' :: tail) := by
        conv_lhs => rw [← List.takeWhile_append_dropWhile (p := Char.isDigit) (l := r2),
          ← h2d, hdot2, e4]
      have ecs : cs = cs.takeWhile Char.isDigit ++
          '.' :: (r2.takeWhile Char.isDigit ++
            '.' :: (r4.takeWhile Char.isDigit ++ '-' :: tail)) := by
        conv_lhs => rw [← List.takeWhile_append_dropWhile (p := Char.isDigit) (l := cs),
          ← h1d, hdot1, e2]
      exact ⟨cs.takeWhile Char.isDigit, r2.takeWhile Char.isDigit,
        r4.takeWhile Char.isDigit, tail, ecs, h1ne, h2ne, h3ne,
        fun x hx => mem_takeWhile_sat hx, fun x hx => mem_takeWhile_sat hx,
        fun x hx => mem_takeWhile_sat hx, h.1, fun x hx => h.2 x hx⟩
  · rintro ⟨a, b, c, hh, rfl, hane, hbne, hcne, hda, hdb, hdc, hlen, hhex⟩
    have hdot : ¬ Char.isDigit '.' = true := by decide
    have hdash : ¬ Char.isDigit '-' = true := by decide
    obtain ⟨ht1, hd1⟩ := takeWhile_append_run hdot hda
      (t := b ++ '.' :: (c ++ '-' :: hh))
    have hm1 : eatMany1 Char.isDigit (a ++ '.' :: (b ++ '.' :: (c ++ '-' :: hh))) =
        some ('.' :: (b ++ '.' :: (c ++ '-' :: hh))) :=
      eatMany1_eq_some.mpr ⟨by rw [ht1]; exact hane, by rw [hd1]⟩
    obtain ⟨ht2, hd2⟩ := takeWhile_append_run hdot hdb (t := c ++ '-' :: hh)
    have hm2 : eatMany1 Char.isDigit (b ++ '.' :: (c ++ '-' :: hh)) =
        some ('.' :: (c ++ '-' :: hh)) :=
      eatMany1_eq_some.mpr ⟨by rw [ht2]; exact hbne, by rw [hd2]⟩
    obtain ⟨ht3, hd3⟩ := takeWhile_append_run hdash hdc (t := hh)
    have hm3 : eatMany1 Char.isDigit (c ++ '-' :: hh) = some ('-' :: hh) :=
      eatMany1_eq_some.mpr ⟨by rw [ht3]; exact hcne, by rw [hd3]⟩
    rw [hm1, Option.some_bind, eatChar_eq_some.mpr rfl, Option.some_bind, hm2,
      Option.some_bind, eatChar_eq_some.mpr rfl, Option.some_bind, hm3,
      Option.some_bind, eatChar_eq_some.mpr rfl]
    simp only [Bool.and_eq_true, decide_eq_true_eq, List.all_eq_true]
    exact ⟨hlen, fun x hx => hhex x hx⟩

theorem specStable_nil : ¬ SpecStableRelease [] := by
  rintro ⟨a, b, h, -⟩
  cases h

theorem specDev_nil : ¬ SpecDevBuild [] := by
  rintro ⟨a, b, c, hh, h, -⟩
  cases a <;> simp at h

theorem string_eq_empty_iff_data {s : String} : s = "" ↔ s.data = [] := by
  constructor
  · rintro rfl; rfl
  · intro h
    cases s with
    | mk d => cases h; rfl

theorem isXandeumVersion_iff (v : Option String) :
    isXandeumVersion v = true ↔
      ∃ s, v = some s ∧ (SpecStableRelease s.data ∨ SpecDevBuild s.data) := by
  cases v with
  | none => simp [isXandeumVersion]
  | some s =>
    simp only [isXandeumVersion, Option.some.injEq]
    by_cases hs : s = ""
    · subst hs
      simp only [if_pos rfl]
      constructor
      · intro h; cases h
      · rintro ⟨t, rfl, h | h⟩
        · exact absurd h (by simpa [string_eq_empty_iff_data] using specStable_nil)
        · exact absurd h (by simpa [string_eq_empty_iff_data] using specDev_nil)
    · rw [if_neg hs]
      rw [Bool.or_eq_true, pnodePattern_iff, vnodePattern_iff]
      constructor
      · intro h; exact ⟨s, rfl, h⟩
      · rintro ⟨t, rfl, h⟩; exact h

/-! ## Claim C3 -/

/-- C3: the Version Classifier is a total, deterministic function of the
(optional) version string alone; it classifies as target-node exactly the
strings matching the stable-release shape `0\.\d{3}\.\d{5}` or the
development-build shape `\d+\.\d+\.\d+-[0-9a-f]{8}`, and as generic-node the
absent version, the empty string, and non-matching strings such as
`"1.18.2"` and `"abc"`. -/
theorem C3_version_classifier_total_correct :
    (∀ v : Option String,
      isXandeumVersion v = true ↔
        ∃ s, v = some s ∧ (SpecStableRelease s.data ∨ SpecDevBuild s.data)) ∧
    isXandeumVersion (some "0.806.30102") = true ∧
    isXandeumVersion (some "2.2.0-7c3f39e8") = true ∧
    isXandeumVersion none = false ∧
    isXandeumVersion (some "") = false ∧
    isXandeumVersion (some "1.18.2") = false ∧
    isXandeumVersion (some "abc") = false :=
  ⟨isXandeumVersion_iff, by decide, by decide, rfl, by decide, by decide, by decide⟩

/-- C3 witness: the classifier equivalence instantiated on a concrete
stable-release version string. -/
theorem C3_witness : isXandeumVersion (some "0.714.30008") = true := by
  have h := C3_version_classifier_total_correct
  refine (h.1 (some "0.714.30008")).mpr
    ⟨"0.714.30008", rfl, Or.inl ⟨['7', '1', '4'], ['3', '0', '0', '0', '8'], ?_, rfl,
      rfl, by decide, by decide⟩⟩
  decide

/-! ## Claim C1 -/

/-- C1 (counterexample): the Merge/Dedup engine downgrades a healthy record.
Folding an incoming unhealthy record that carries a latency over an existing
healthy record with the same key and no latency keeps the incoming record,
so the merged record's health is `unhealthy` although the incoming record is
not healthy. -/
theorem C1_counterexample :
    exHealthyNoLat.pubkey = exUnhealthyLat.pubkey ∧
    exHealthyNoLat.health = Health.healthy ∧
    ¬ exUnhealthyLat.health = Health.healthy ∧
    dedupByPubkey [exHealthyNoLat, exUnhealthyLat] = [exUnhealthyLat] ∧
    exUnhealthyLat.health = Health.unhealthy := by decide

/-- C1 (amended): folding an incoming record over an existing healthy record
with the same key keeps the existing record — so health is not downgraded —
unless the incoming record carries a known latency while the existing record
has none (in which case the code's more-information rule replaces the record
even when the incoming health is worse). -/
theorem C1_merge_no_downgrade (e i : PNode) (hk : i.pubkey = e.pubkey)
    (he : e.health = Health.healthy)
    (hl : i.latency = none ∨ e.latency ≠ none) :
    dedupByPubkey [e, i] = [e] := by
  have h2 : dedupByPubkey [e, i] = dedupInsert (dedupInsert [] e) i := rfl
  have h1 : dedupInsert [] e = [e] := by simp [dedupInsert]
  rw [h2, h1]
  unfold dedupInsert
  have hfind : [e].find? (fun p => decide (p.pubkey = i.pubkey)) = some e := by
    simp [List.find?, hk.symm]
  rw [hfind]
  have hmore : moreInfo i e = false := by
    unfold moreInfo
    rw [he]
    rcases hl with h | h
    · simp [h]
    · simp [h]
  simp [hmore]

/-- C1 witness: instantiating the amended merge theorem on the concrete
healthy record and an incoming unknown-health record without latency. -/
theorem C1_witness :
    dedupByPubkey [exHealthyNoLat, exUnknownNoLat] = [exHealthyNoLat] :=
  C1_merge_no_downgrade exHealthyNoLat exUnknownNoLat (by decide) (by decide)
    (Or.inl (by decide))

/-! ## Claim C2 -/

/-- C2 (counterexample): a direct-query fallback record is marked
target-node (`isPNode = true`) even though the Version Classifier rejects its
version string `"1.18.2"` — the kind is fixed unconditionally on this path,
not derived from the classifier. -/
theorem C2_counterexample :
    (directQueryAddress 0 "1.2.3.4:9001" exVersionOnlyResp).node.isPNode = true ∧
    isXandeumVersion (directQueryAddress 0 "1.2.3.4:9001" exVersionOnlyResp).node.version
      = false := by decide

/-- C2 (amended): only cluster-discovery records derive `isPNode` from the
Version Classifier applied to the record's version; both fallback-path record
shapes (direct-query records and neighbor records) set `isPNode` to `true`
unconditionally. -/
theorem C2_kind_assignment :
    (∀ now c, (mapClusterNodeToPNode now c).isPNode = isXandeumVersion c.version) ∧
    (∀ now addr r, (directQueryAddress now addr r).node.isPNode = true) ∧
    (∀ now pk cn, (neighborNodeToPNode now pk cn).isPNode = true) :=
  ⟨fun _ _ => rfl, fun _ _ _ => rfl, fun _ _ _ => rfl⟩

/-! ## Claim C4 -/

/-- C4 (counterexample): when discovery yields zero records the orchestrator
sets the connection state to error and skips enrichment, but it does **not**
zero the aggregate statistics — the previously published non-zero stats are
left untouched. -/
theorem C4_counterexample :
    refreshNodesStep exPrevState [] =
      { status := ConnStatus.error, stats := exPrevState.stats,
        nodes := exPrevState.nodes, enteredEnrichment := false } ∧
    ¬ exPrevState.stats =
      { totalNodes := 0, healthyNodes := 0, avgLatency := 0, tps := 0,
        currentSlot := 0 } := by decide

/-- C4 (amended): whenever the discovery result is empty, the refresh cycle
settles with connection state `error`, does not enter the enrichment stage,
and leaves the previously published statistics and node list unchanged
(rather than zeroing the statistics). -/
theorem C4_error_transition (prev : RefreshState) (fetched : List PNode)
    (h : fetched = []) :
    (refreshNodesStep prev fetched).status = ConnStatus.error ∧
    (refreshNodesStep prev fetched).enteredEnrichment = false ∧
    (refreshNodesStep prev fetched).stats = prev.stats ∧
    (refreshNodesStep prev fetched).nodes = prev.nodes := by
  subst h
  simp [refreshNodesStep]

/-- C4 witness: the amended transition instantiated on the concrete previous
state. -/
theorem C4_witness :
    (refreshNodesStep exPrevState []).status = ConnStatus.error ∧
    (refreshNodesStep exPrevState []).enteredEnrichment = false ∧
    (refreshNodesStep exPrevState []).stats = exPrevState.stats ∧
    (refreshNodesStep exPrevState []).nodes = exPrevState.nodes :=
  C4_error_transition exPrevState [] rfl

/-! ## Claim C9 -/

theorem foldl_append_eq_flatMap {α β : Type} (f : α → List β) :
    ∀ (l : List α) (init : List β),
      l.foldl (fun acc x => acc ++ f x) init = init ++ l.flatMap f := by
  intro l
  induction l with
  | nil => intro init; simp
  | cons x xs ih => intro init; simp [List.foldl, ih]

/-- C9: the enrichment loop's event trace is strictly sequential and equals
the spec-shaped schedule: the requests in index order with exactly one
1500 ms pause between every pair of consecutive requests; the last event is
the final request, so no pause follows it. -/
theorem C9_geo_schedule (n : Nat) (h : 1 ≤ n) :
    enrichSchedule n = pausedSchedule n ∧
    (enrichSchedule n).getLast? = some (GeoEvent.request (n - 1)) := by
  obtain ⟨m, rfl⟩ : ∃ m, n = m + 1 := ⟨n - 1, (Nat.succ_pred_eq_of_pos h).symm⟩
  have key : enrichSchedule (m + 1) = pausedSchedule (m + 1) := by
    unfold enrichSchedule pausedSchedule
    rw [List.range_succ, List.foldl_append]
    have hcong :
        (List.range m).foldl
          (fun acc i =>
            acc ++ [GeoEvent.request i] ++
              (if i < m + 1 - 1 then [GeoEvent.pause 1500] else [])) [] =
        (List.range m).foldl
          (fun acc i => acc ++ [GeoEvent.request i, GeoEvent.pause 1500]) [] := by
      apply List.foldl_ext
      intro acc b hb
      have hbm : b < m := List.mem_range.mp hb
      simp [hbm]
    rw [hcong]
    have hflat := foldl_append_eq_flatMap
      (fun i => [GeoEvent.request i, GeoEvent.pause 1500]) (List.range m) []
    simp only at hflat
    rw [hflat]
    simp
  refine ⟨key, ?_⟩
  rw [key]
  unfold pausedSchedule
  simp

/-- C9 witness: the schedule equation evaluated at three candidates. -/
theorem C9_witness :
    enrichSchedule 3 = pausedSchedule 3 ∧
    (enrichSchedule 3).getLast? = some (GeoEvent.request 2) :=
  C9_geo_schedule 3 (by decide)

/-! ## Claim C7 -/

/-- C7: `rpcCallToNode` never raises to its caller — for every proxy
availability state and every behavior of the two transports (throwing,
non-ok response, or application-level error) the call returns an `ok` value;
the relay transport is attempted first whenever it is not known unavailable,
a relay transport failure falls through to the direct transport, and every
failure mode surfaces as a `null` result rather than an exception. -/
theorem C7_rpc_never_raises {T : Type} (avail : Option Bool) (env : RpcEnv T) :
    exceptOk (rpcCallToNode avail env) = true ∧
    (avail ≠ some false →
      (rpcTrace (rpcCallToNode avail env)).head? = some Transport.relay) ∧
    (avail = some false → rpcTrace (rpcCallToNode avail env) = [Transport.direct]) ∧
    ((env.proxy = FetchEvt.throws ∨ env.proxy = FetchEvt.notOk) → avail ≠ some false →
      rpcTrace (rpcCallToNode avail env) = [Transport.relay, Transport.direct]) ∧
    (∀ e r, env.proxy = FetchEvt.ok (some e) r → avail ≠ some false →
      rpcResult (rpcCallToNode avail env) = none) ∧
    ((env.proxy = FetchEvt.throws ∨ env.proxy = FetchEvt.notOk ∨ avail = some false) →
      (env.direct = FetchEvt.throws ∨ env.direct = FetchEvt.notOk ∨
        ∃ e r, env.direct = FetchEvt.ok (some e) r) →
      rpcResult (rpcCallToNode avail env) = none) := by
  rcases env with ⟨p, d, pe, de, fe⟩
  rcases avail with _ | b <;> try cases b
  all_goals
    rcases p with _ | _ | ⟨pe', pr⟩ <;> rcases d with _ | _ | ⟨de', dr⟩ <;>
      try rcases pe' with _ | pec
  all_goals
    try rcases de' with _ | dec
  all_goals
    simp [rpcCallToNode, exceptOk, rpcTrace, rpcResult]

/-- C7 witness: the call with both transports throwing still returns, with a
null result and the relay-then-direct attempt order. -/
theorem C7_witness :
    exceptOk (rpcCallToNode none exRpcEnvFail) = true ∧
    (rpcTrace (rpcCallToNode none exRpcEnvFail)).head? = some Transport.relay ∧
    rpcTrace (rpcCallToNode none exRpcEnvFail) = [Transport.relay, Transport.direct] ∧
    rpcResult (rpcCallToNode none exRpcEnvFail) = none := by
  have h := C7_rpc_never_raises (T := Nat) none exRpcEnvFail
  refine ⟨h.1, h.2.1 (by simp), ?_, ?_⟩
  · exact h.2.2.2.1 (Or.inl rfl) (by simp)
  · exact h.2.2.2.2.2 (Or.inl rfl) (Or.inl rfl)

/-! ## Claim C6 -/

/-- C6 (counterexample): the candidate selection admits a node whose address
is the loopback address — only truthiness of the address is filtered, so a
blocked (loopback/private) address still occupies one of the 17 selection
slots; it merely receives no location because `getGeoLocation` rejects it. -/
theorem C6_counterexample :
    selectGeoCandidates [exLoopbackNode] = [exLoopbackNode] ∧
    exLoopbackNode.ip = some "127.0.0.1" ∧
    geoBlocked "127.0.0.1" = true ∧
    getGeoLocation (fun _ => some exLoc) "127.0.0.1" = none ∧
    runGeoCycle [exLoopbackNode] (fun _ => some exLoc) = [exLoopbackNode] := by decide

theorem countP_updateLocation_le (p : PNode → Bool) :
    ∀ (l : List PNode) (idx : Nat) (loc : GeoLocation),
      (updateLocation l idx loc).countP p ≤ l.countP p + 1 := by
  intro l
  induction l with
  | nil => intro idx loc; simp [updateLocation]
  | cons n rest ih =>
    intro idx loc
    cases idx with
    | zero =>
      simp only [updateLocation, List.countP_cons]
      have : rest.countP p ≤ rest.countP p := le_refl _
      split_ifs <;> omega
    | succ i =>
      simp only [updateLocation, List.countP_cons]
      have := ih i loc
      split_ifs <;> omega

theorem geoStep_countP_le (s : List PNode) (g : String → Option GeoLocation)
    (p : PNode → Bool) (cur : List PNode) (node : PNode) :
    (geoStep s g cur node).countP p ≤ cur.countP p + 1 := by
  unfold geoStep
  rcases node.ip with _ | ip
  · exact Nat.le_succ _
  · by_cases hip : ip = ""
    · simp only [hip, if_pos rfl]
      exact Nat.le_succ _
    · simp only [if_neg hip]
      rcases getGeoLocation g ip with _ | loc
      · exact Nat.le_succ _
      · dsimp only
        rcases h3 : s.findIdx? (fun n => decide (n.pubkey = node.pubkey)) with _ | idx
        · rw [h3]; exact Nat.le_succ _
        · rw [h3]; exact countP_updateLocation_le p cur idx loc

theorem foldl_geoStep_countP_le (s : List PNode) (g : String → Option GeoLocation)
    (p : PNode → Bool) :
    ∀ (cands cur : List PNode),
      ((cands.foldl (geoStep s g) cur).countP p) ≤ cur.countP p + cands.length := by
  intro cands
  induction cands with
  | nil => intro cur; simp
  | cons c cs ih =>
    intro cur
    calc ((c :: cs).foldl (geoStep s g) cur).countP p
        = (cs.foldl (geoStep s g) (geoStep s g cur c)).countP p := rfl
      _ ≤ (geoStep s g cur c).countP p + cs.length := ih _
      _ ≤ (cur.countP p + 1) + cs.length := by
          have := geoStep_countP_le s g p cur c
          omega
      _ = cur.countP p + (c :: cs).length := by simp [List.length_cons]; omega

/-- C6 (amended): the enrichment pipeline selects at most 17 candidates per
cycle, admitting every node with a truthy (non-empty) address — loopback and
private-range addresses are not excluded from selection, they are only
rejected at lookup time, where `getGeoLocation` returns no location for them;
consequently at most 17 nodes can acquire a location in one cycle (so with 30
public-address candidates at most 17 receive one). -/
theorem C6_geo_cap (nodes : List PNode) (geoApi : String → Option GeoLocation) :
    (selectGeoCandidates nodes).length ≤ 17 ∧
    (∀ n ∈ selectGeoCandidates nodes, ipTruthy n.ip = true) ∧
    (∀ ip, geoBlocked ip = true → getGeoLocation geoApi ip = none) ∧
    (runGeoCycle nodes geoApi).countP (fun n => n.location.isSome) ≤
      nodes.countP (fun n => n.location.isSome) + 17 ∧
    ((∀ n ∈ nodes, n.location = none) →
      (runGeoCycle nodes geoApi).countP (fun n => n.location.isSome) ≤ 17) := by
  have hlen : (selectGeoCandidates nodes).length ≤ 17 := by
    unfold selectGeoCandidates
    simp [List.length_take_le 17 (nodes.filter (fun n => ipTruthy n.ip))]
  have hmem : ∀ n ∈ selectGeoCandidates nodes, ipTruthy n.ip = true := by
    intro n hn
    unfold selectGeoCandidates at hn
    exact (List.mem_filter.mp (List.mem_of_mem_take hn)).2
  have hblocked : ∀ ip, geoBlocked ip = true → getGeoLocation geoApi ip = none := by
    intro ip h
    simp [getGeoLocation, h]
  have hbound : (runGeoCycle nodes geoApi).countP (fun n => n.location.isSome) ≤
      nodes.countP (fun n => n.location.isSome) + 17 := by
    unfold runGeoCycle
    calc ((selectGeoCandidates nodes).foldl (geoStep nodes geoApi) nodes).countP
          (fun n => n.location.isSome)
        ≤ nodes.countP (fun n => n.location.isSome) + (selectGeoCandidates nodes).length :=
          foldl_geoStep_countP_le nodes geoApi _ _ _
      _ ≤ nodes.countP (fun n => n.location.isSome) + 17 := by omega
  refine ⟨hlen, hmem, hblocked, hbound, ?_⟩
  intro hnone
  have hzero : nodes.countP (fun n => n.location.isSome) = 0 := by
    rw [List.countP_eq_zero]
    intro n hn
    simp [hnone n hn]
  omega

/-- C6 witness: the cap theorem instantiated on a concrete single-node list
with an always-successful lookup oracle. -/
theorem C6_witness :
    (selectGeoCandidates [exLoopbackNode]).length ≤ 17 ∧
    (runGeoCycle [exLoopbackNode] (fun _ => some exLoc)).countP
      (fun n => n.location.isSome) ≤ 17 := by
  have h := C6_geo_cap [exLoopbackNode] (fun _ => some exLoc)
  exact ⟨h.1, h.2.2.2.2 (by decide)⟩

/-! ## Merge/Dedup lemmas shared by C5 and C10 -/

theorem dedupInsert_preserves_key (m : List PNode) (node : PNode) (k : String)
    (h : ∃ p ∈ m, p.pubkey = k) : ∃ p ∈ dedupInsert m node, p.pubkey = k := by
  unfold dedupInsert
  rcases hf : m.find? (fun p => decide (p.pubkey = node.pubkey)) with _ | ex <;> rw [hf]
  · obtain ⟨p, hp, hpk⟩ := h
    exact ⟨p, List.mem_append_left _ hp, hpk⟩
  · dsimp only
    by_cases hm : moreInfo node ex = true
    · rw [if_pos hm]
      obtain ⟨p, hp, hpk⟩ := h
      by_cases hpe : p.pubkey = node.pubkey
      · refine ⟨node, List.mem_map.mpr ⟨p, hp, by simp [hpe]⟩, ?_⟩
        rw [← hpe]; exact hpk
      · exact ⟨p, List.mem_map.mpr ⟨p, hp, by simp [hpe]⟩, hpk⟩
    · rw [if_neg hm]; exact h

theorem dedupInsert_adds_key (m : List PNode) (node : PNode) :
    ∃ p ∈ dedupInsert m node, p.pubkey = node.pubkey := by
  unfold dedupInsert
  rcases hf : m.find? (fun p => decide (p.pubkey = node.pubkey)) with _ | ex <;> rw [hf]
  · exact ⟨node, List.mem_append_right _ (by simp), rfl⟩
  · have h1 : ex ∈ m := List.mem_of_find?_eq_some hf
    have h2 : ex.pubkey = node.pubkey := by
      have := List.find?_some hf
      simpa using this
    dsimp only
    by_cases hm : moreInfo node ex = true
    · rw [if_pos hm]
      exact ⟨node, List.mem_map.mpr ⟨ex, h1, by simp [h2]⟩, rfl⟩
    · rw [if_neg hm]
      exact ⟨ex, h1, h2⟩

theorem dedupInsert_subset (m : List PNode) (node : PNode) :
    ∀ p ∈ dedupInsert m node, p ∈ m ∨ p = node := by
  unfold dedupInsert
  rcases hf : m.find? (fun p => decide (p.pubkey = node.pubkey)) with _ | ex <;> rw [hf]
  · intro p hp
    rcases List.mem_append.mp hp with h | h
    · exact Or.inl h
    · exact Or.inr (by simpa using h)
  · dsimp only
    by_cases hm : moreInfo node ex = true
    · rw [if_pos hm]
      intro p hp
      obtain ⟨q, hq, hqe⟩ := List.mem_map.mp hp
      by_cases hqq : q.pubkey = node.pubkey
      · rw [if_pos hqq] at hqe; exact Or.inr hqe.symm
      · rw [if_neg hqq] at hqe; exact Or.inl (hqe ▸ hq)
    · rw [if_neg hm]
      intro p hp
      exact Or.inl hp

theorem dedup_foldl_preserves (k : String) :
    ∀ (l acc : List PNode),
      ((∃ p ∈ acc, p.pubkey = k) ∨ (∃ p ∈ l, p.pubkey = k)) →
      ∃ p ∈ l.foldl dedupInsert acc, p.pubkey = k := by
  intro l
  induction l with
  | nil =>
    intro acc h
    rcases h with h | ⟨p, hp, _⟩
    · exact h
    · simp at hp
  | cons x xs ih =>
    intro acc h
    apply ih
    rcases h with ⟨p, hp, hpk⟩ | ⟨p, hp, hpk⟩
    · exact Or.inl (dedupInsert_preserves_key acc x k ⟨p, hp, hpk⟩)
    · rcases List.mem_cons.mp hp with rfl | hp'
      · obtain ⟨q, hq, hqk⟩ := dedupInsert_adds_key acc p
        exact Or.inl ⟨q, hq, hqk.trans hpk⟩
      · exact Or.inr ⟨p, hp', hpk⟩

theorem dedupByPubkey_preserves_keys (l : List PNode) :
    ∀ n ∈ l, ∃ m ∈ dedupByPubkey l, m.pubkey = n.pubkey := by
  intro n hn
  exact dedup_foldl_preserves n.pubkey l [] (Or.inr ⟨n, hn, rfl⟩)

theorem dedup_foldl_subset :
    ∀ (l acc : List PNode), ∀ p ∈ l.foldl dedupInsert acc, p ∈ acc ∨ p ∈ l := by
  intro l
  induction l with
  | nil => intro acc p hp; exact Or.inl hp
  | cons x xs ih =>
    intro acc p hp
    rcases ih (dedupInsert acc x) p hp with h | h
    · rcases dedupInsert_subset acc x p h with h' | h'
      · exact Or.inl h'
      · exact Or.inr (by rw [h']; exact List.mem_cons_self x xs)
    · exact Or.inr (List.mem_cons_of_mem _ h)

theorem dedupByPubkey_subset (l : List PNode) : ∀ p ∈ dedupByPubkey l, p ∈ l := by
  intro p hp
  rcases dedup_foldl_subset l [] p hp with h | h
  · simp at h
  · exact h

theorem dedupByPubkey_ne_nil {l : List PNode} (h : l ≠ []) : dedupByPubkey l ≠ [] := by
  obtain ⟨x, xs, rfl⟩ := List.exists_cons_of_ne_nil h
  obtain ⟨m, hm, -⟩ := dedupByPubkey_preserves_keys (x :: xs) x (by simp)
  intro hnil
  rw [hnil] at hm
  simp at hm

/-! ## Fallback-collection lemmas shared by C5 and C10 -/

theorem directQueryAddress_connectedDelta (now : Nat) (addr : String)
    (r : AddrResponses) :
    (directQueryAddress now addr r).connectedDelta =
      (if r.health.isSome then 1 else 0) + (if r.version.isSome then 1 else 0) := by
  obtain ⟨hh, vv, ii, cc, hl, vl, il⟩ := r
  cases hh <;> cases vv <;> rfl

theorem foldl_pair_snd {α β : Type} (f : List β × Nat → α → List β × Nat)
    (h : α → Nat) (hf : ∀ acc a, (f acc a).2 = acc.2 + h a) :
    ∀ (l : List α) (acc : List β × Nat), (l.foldl f acc).2 = acc.2 + (l.map h).sum := by
  intro l
  induction l with
  | nil => intro acc; simp
  | cons x xs ih =>
    intro acc
    rw [List.foldl_cons, ih, hf]
    simp [List.map_cons, List.sum_cons]
    omega

theorem fallbackCollect_connected (now : Nat) (addrs : List String)
    (oracle : String → AddrResponses) :
    (fallbackCollect now addrs oracle).2 =
      (addrs.map (fun a => (directQueryAddress now a (oracle a)).connectedDelta)).sum := by
  unfold fallbackCollect
  rw [foldl_pair_snd _ (fun a => (directQueryAddress now a (oracle a)).connectedDelta)
    (fun acc a => rfl) addrs ([], 0)]
  simp

theorem addNeighbors_mono (now : Nat) :
    ∀ (cl : List ClusterNodeInfo) (ns : List PNode) (p : PNode),
      p ∈ ns → p ∈ addNeighbors now ns cl := by
  intro cl
  induction cl with
  | nil => intro ns p hp; exact hp
  | cons cn rest ih =>
    intro ns p hp
    unfold addNeighbors
    rw [List.foldl_cons]
    apply ih
    rcases cn.pubkey with _ | pk
    · exact hp
    · dsimp only
      by_cases h0 : pk = ""
      · rw [if_pos h0]; exact hp
      · rw [if_neg h0]
        by_cases h1 : ns.any (fun n => decide (n.pubkey = pk)) = true
        · rw [if_pos h1]; exact hp
        · rw [if_neg h1]; exact List.mem_append_left _ hp

theorem fallback_foldl_mono (now : Nat) (oracle : String → AddrResponses) :
    ∀ (addrs : List String) (acc : List PNode × Nat) (p : PNode),
      p ∈ acc.1 →
      p ∈ (addrs.foldl
        (fun acc addr =>
          let r := directQueryAddress now addr (oracle addr)
          let withNode := acc.1 ++ [r.node]
          let withNeighbors :=
            match r.clusterNodes with
            | some cl => addNeighbors now withNode cl
            | none => withNode
          (withNeighbors, acc.2 + r.connectedDelta)) acc).1 := by
  intro addrs
  induction addrs with
  | nil => intro acc p hp; exact hp
  | cons a as ih =>
    intro acc p hp
    rw [List.foldl_cons]
    apply ih
    dsimp only
    rcases (directQueryAddress now a (oracle a)).clusterNodes with _ | cl
    · exact List.mem_append_left _ hp
    · exact addNeighbors_mono now cl _ p (List.mem_append_left _ hp)

theorem fallbackCollect_mem_node (now : Nat) (oracle : String → AddrResponses) :
    ∀ (addrs : List String) (acc : List PNode × Nat) (a : String), a ∈ addrs →
      (directQueryAddress now a (oracle a)).node ∈ (addrs.foldl
        (fun acc addr =>
          let r := directQueryAddress now addr (oracle addr)
          let withNode := acc.1 ++ [r.node]
          let withNeighbors :=
            match r.clusterNodes with
            | some cl => addNeighbors now withNode cl
            | none => withNode
          (withNeighbors, acc.2 + r.connectedDelta)) acc).1 := by
  intro addrs
  induction addrs with
  | nil => intro acc a ha; simp at ha
  | cons x xs ih =>
    intro acc a ha
    rcases List.mem_cons.mp ha with rfl | ha'
    · rw [List.foldl_cons]
      apply fallback_foldl_mono now oracle xs
      dsimp only
      rcases (directQueryAddress now a (oracle a)).clusterNodes with _ | cl
      · exact List.mem_append_right _ (by simp)
      · exact addNeighbors_mono now cl _ _ (List.mem_append_right _ (by simp))
    · rw [List.foldl_cons]
      exact ih _ a ha'

theorem fallbackCollect_raw_ne_nil (now : Nat) (addrs : List String)
    (oracle : String → AddrResponses) (h : addrs ≠ []) :
    (fallbackCollect now addrs oracle).1 ≠ [] := by
  obtain ⟨x, xs, rfl⟩ := List.exists_cons_of_ne_nil h
  have hmem := fallbackCollect_mem_node now oracle (x :: xs) ([], 0) x (by simp)
  intro hnil
  unfold fallbackCollect at hnil
  rw [hnil] at hmem
  simp at hmem

theorem fallbackCollect_allnull (now : Nat) (oracle : String → AddrResponses) :
    ∀ (addrs : List String) (acc : List PNode × Nat),
      (∀ a ∈ addrs, oracle a = noResponses) →
      (addrs.foldl
        (fun acc addr =>
          let r := directQueryAddress now addr (oracle addr)
          let withNode := acc.1 ++ [r.node]
          let withNeighbors :=
            match r.clusterNodes with
            | some cl => addNeighbors now withNode cl
            | none => withNode
          (withNeighbors, acc.2 + r.connectedDelta)) acc) =
        (acc.1 ++ addrs.map (fun a => (directQueryAddress now a noResponses).node),
          acc.2) := by
  intro addrs
  induction addrs with
  | nil => intro acc _; simp
  | cons x xs ih =>
    intro acc hnull
    rw [List.foldl_cons]
    have hx : oracle x = noResponses := hnull x (by simp)
    have hstep :
        (let r := directQueryAddress now x (oracle x)
         let withNode := acc.1 ++ [r.node]
         let withNeighbors :=
           match r.clusterNodes with
           | some cl => addNeighbors now withNode cl
           | none => withNode
         (withNeighbors, acc.2 + r.connectedDelta)) =
        (acc.1 ++ [(directQueryAddress now x noResponses).node], acc.2) := by
      rw [hx]
      rfl
    rw [hstep, ih _ (fun a ha => hnull a (List.mem_cons_of_mem _ ha))]
    simp

/-! ## Claim C10 -/

/-- C10: the direct-query fallback produces at least one record per listed
address: with any oracle a non-empty address list yields a non-empty
deduplicated result, and when every address answers null to all four RPC
methods, each listed address contributes a record whose identity key is the
synthesized `pnode-<ip>-<port>` key, with health `unknown` and no latency. -/
theorem C10_fallback_nonempty (now : Nat) (addrs : List String)
    (oracle : String → AddrResponses) :
    (addrs ≠ [] → (getPnodeGossipFallback now addrs oracle).1 ≠ []) ∧
    ((∀ a ∈ addrs, oracle a = noResponses) → ∀ a ∈ addrs,
      ∃ m ∈ (getPnodeGossipFallback now addrs oracle).1,
        m.pubkey = synthKeyOfAddr a ∧ m.health = Health.unknown ∧
          m.latency = none) := by
  constructor
  · intro h
    exact dedupByPubkey_ne_nil (fallbackCollect_raw_ne_nil now addrs oracle h)
  · intro hnull a ha
    have hraw : (fallbackCollect now addrs oracle).1 =
        addrs.map (fun a => (directQueryAddress now a noResponses).node) := by
      unfold fallbackCollect
      rw [fallbackCollect_allnull now oracle addrs ([], 0) hnull]
      simp
    have hnode : (directQueryAddress now a noResponses).node ∈
        (fallbackCollect now addrs oracle).1 := by
      rw [hraw]
      exact List.mem_map.mpr ⟨a, ha, rfl⟩
    obtain ⟨m, hm, hmk⟩ :=
      dedupByPubkey_preserves_keys (fallbackCollect now addrs oracle).1 _ hnode
    refine ⟨m, hm, ?_, ?_, ?_⟩
    · rw [hmk]; rfl
    · have hsub := dedupByPubkey_subset (fallbackCollect now addrs oracle).1 m hm
      rw [hraw] at hsub
      obtain ⟨b, -, hb⟩ := List.mem_map.mp hsub
      rw [← hb]; rfl
    · have hsub := dedupByPubkey_subset (fallbackCollect now addrs oracle).1 m hm
      rw [hraw] at hsub
      obtain ⟨b, -, hb⟩ := List.mem_map.mp hsub
      rw [← hb]; rfl

/-- C10 witness: the 16 reference addresses with an all-null oracle — the
result is non-empty and the first reference address keeps its synthesized
unknown-health record. -/
theorem C10_witness :
    (getPnodeGossipFallback 0 (getAllPNodeAddresses []) (fun _ => noResponses)).1 ≠ [] ∧
    ∃ m ∈ (getPnodeGossipFallback 0 (getAllPNodeAddresses []) (fun _ => noResponses)).1,
      m.pubkey = synthKeyOfAddr "157.173.125.223:9001" ∧
        m.health = Health.unknown ∧ m.latency = none := by
  have h := C10_fallback_nonempty 0 (getAllPNodeAddresses []) (fun _ => noResponses)
  exact ⟨h.1 (by decide), h.2 (fun a _ => rfl) "157.173.125.223:9001" (by decide)⟩

/-! ## Claim C5 -/

/-- C5 (counterexample): an address that answers only the identity query is
a non-null RPC response, yet the code's reachable counter stays at zero (it
counts only health and version responses) and the "unreachable" diagnostic
error is recorded anyway — contradicting the claim that every address with
any non-null response is counted. -/
theorem C5_counterexample :
    (getPnodeGossipFallback 0 ["1.2.3.4:9001"] (fun _ => exIdentityOnlyResp)).2.1 = 0 ∧
    specReachableCount ["1.2.3.4:9001"] (fun _ => exIdentityOnlyResp) = 1 ∧
    ((getPnodeGossipFallback 0 ["1.2.3.4:9001"]
      (fun _ => exIdentityOnlyResp)).2.2).isSome = true := by decide

/-- C5 (amended): the reachable counter adds one for a non-null health
response and one for a non-null version response per address (so identity-only
or neighbor-list-only responses do not count, and an address answering both
health and version counts twice); when the counter is zero and at least one
record was collected, a non-null diagnostic error is recorded, and the
collected records are kept: every collected identity key still appears in the
returned deduplicated set. -/
theorem C5_reachable_count (now : Nat) (addrs : List String)
    (oracle : String → AddrResponses) :
    (getPnodeGossipFallback now addrs oracle).2.1 =
      (addrs.map (fun a =>
        (if (oracle a).health.isSome then 1 else 0) +
          (if (oracle a).version.isSome then 1 else 0))).sum ∧
    ((getPnodeGossipFallback now addrs oracle).2.1 = 0 →
      (fallbackCollect now addrs oracle).1 ≠ [] →
      ((getPnodeGossipFallback now addrs oracle).2.2).isSome = true) ∧
    (∀ n ∈ (fallbackCollect now addrs oracle).1,
      ∃ m ∈ (getPnodeGossipFallback now addrs oracle).1, m.pubkey = n.pubkey) := by
  refine ⟨?_, ?_, ?_⟩
  · have h := fallbackCollect_connected now addrs oracle
    have h2 : (getPnodeGossipFallback now addrs oracle).2.1 =
        (fallbackCollect now addrs oracle).2 := rfl
    rw [h2, h]
    congr 1
    apply List.map_congr_left
    intro a _
    exact directQueryAddress_connectedDelta now a (oracle a)
  · intro hzero hne
    have h2 : (getPnodeGossipFallback now addrs oracle).2.2 =
        lastErrorOf (fallbackCollect now addrs oracle).1
          (fallbackCollect now addrs oracle).2 := rfl
    have hc : (fallbackCollect now addrs oracle).2 = 0 := hzero
    have hlen : 0 < (fallbackCollect now addrs oracle).1.length :=
      List.length_pos.mpr hne
    rw [h2]
    unfold lastErrorOf
    rw [if_pos ⟨hc, hlen⟩]
    rfl
  · intro n hn
    exact dedupByPubkey_preserves_keys (fallbackCollect now addrs oracle).1 n hn

/-- C5 witness: the amended reachable-count behavior on one all-null address:
the counter is zero and the diagnostic error is recorded. -/
theorem C5_witness :
    ((getPnodeGossipFallback 0 ["1.2.3.4:9001"] (fun _ => noResponses)).2.2).isSome
      = true := by
  have h := C5_reachable_count 0 ["1.2.3.4:9001"] (fun _ => noResponses)
  exact h.2.1 (by decide) (by decide)

/-! ## Claim C8 -/

theorem mapSet_fst (m : List (String × ClusterNodeInfo)) (k : String)
    (v : ClusterNodeInfo) :
    (mapSet m k v).map Prod.fst =
      if m.any (fun p => decide (p.1 = k)) then m.map Prod.fst
      else m.map Prod.fst ++ [k] := by
  unfold mapSet
  by_cases h : m.any (fun p => decide (p.1 = k)) = true
  · rw [if_pos h, if_pos h, List.map_map]
    apply List.map_congr_left
    intro p _
    by_cases hp : p.1 = k
    · simp [hp]
    · simp [hp]
  · rw [if_neg h, if_neg h, List.map_append]
    rfl

theorem mapSet_keys_nodup (m : List (String × ClusterNodeInfo)) (k : String)
    (v : ClusterNodeInfo) (h : (m.map Prod.fst).Nodup) :
    ((mapSet m k v).map Prod.fst).Nodup := by
  rw [mapSet_fst]
  by_cases ha : m.any (fun p => decide (p.1 = k)) = true
  · rw [if_pos ha]; exact h
  · rw [if_neg ha]
    have hk : k ∉ m.map Prod.fst := by
      intro hkm
      obtain ⟨p, hp, hpk⟩ := List.mem_map.mp hkm
      exact ha (List.any_eq_true.mpr ⟨p, hp, by simp [hpk]⟩)
    rw [List.nodup_append]
    refine ⟨h, List.nodup_singleton k, ?_⟩
    intro a ha' hb
    have : a = k := by simpa using hb
    exact hk (this ▸ ha')

theorem combined_foldl_keys_nodup :
    ∀ (entries : List ClusterNodeInfo) (acc : List (String × ClusterNodeInfo)),
      (acc.map Prod.fst).Nodup →
      (((entries.foldl
        (fun m n =>
          match n.pubkey with
          | some pk => if pk = "" then m else mapSet m pk n
          | none => m) acc)).map Prod.fst).Nodup := by
  intro entries
  induction entries with
  | nil => intro acc h; exact h
  | cons x xs ih =>
    intro acc h
    rw [List.foldl_cons]
    apply ih
    rcases x.pubkey with _ | pk
    · exact h
    · dsimp only
      by_cases h0 : pk = ""
      · rw [if_pos h0]; exact h
      · rw [if_neg h0]; exact mapSet_keys_nodup acc pk x h

theorem combinedPairs_keys_nodup (l : List ClusterNodeInfo) :
    ((combinedPairs l).map Prod.fst).Nodup := by
  unfold combinedPairs
  exact combined_foldl_keys_nodup _ [] (by simp)

/-- C8: cluster discovery's filtered union — when the union of the
version-classified subset and the known-IP subset (keyed by identity) is
empty, the strategy maps the entire unfiltered array to node records instead
of returning an empty result; when it is non-empty only the union is mapped,
its identity keys are pairwise distinct (an entry present in both subsets
appears once), and a non-empty input never produces an empty output. -/
theorem C8_cluster_union (now : Nat) (l : List ClusterNodeInfo) :
    ((combinedPairs l).map Prod.snd = [] →
      tryGetClusterNodesFromRpc now l = l.map (mapClusterNodeToPNode now)) ∧
    ((combinedPairs l).map Prod.snd ≠ [] →
      tryGetClusterNodesFromRpc now l =
        ((combinedPairs l).map Prod.snd).map (mapClusterNodeToPNode now)) ∧
    ((combinedPairs l).map Prod.fst).Nodup ∧
    (l ≠ [] → tryGetClusterNodesFromRpc now l ≠ []) := by
  refine ⟨?_, ?_, combinedPairs_keys_nodup l, ?_⟩
  · intro h
    unfold tryGetClusterNodesFromRpc
    rw [if_pos (List.isEmpty_iff.mpr h)]
  · intro h
    unfold tryGetClusterNodesFromRpc
    rw [if_neg (fun he => h (List.isEmpty_iff.mp he))]
  · intro h
    unfold tryGetClusterNodesFromRpc
    by_cases he : ((combinedPairs l).map Prod.snd).isEmpty = true
    · rw [if_pos he]
      intro hmap
      exact h (List.map_eq_nil_iff.mp hmap)
    · rw [if_neg he]
      intro hmap
      exact he (List.isEmpty_iff.mpr (List.map_eq_nil_iff.mp hmap))

/-- C8 witness: on a single non-matching entry the union is empty and the
whole array is returned; with a matching entry added, exactly the union is
returned. -/
theorem C8_witness :
    tryGetClusterNodesFromRpc 0 [exClusterPlain] =
      [exClusterPlain].map (mapClusterNodeToPNode 0) ∧
    tryGetClusterNodesFromRpc 0 [exClusterXand, exClusterPlain] =
      ((combinedPairs [exClusterXand, exClusterPlain]).map Prod.snd).map
        (mapClusterNodeToPNode 0) ∧
    tryGetClusterNodesFromRpc 0 [exClusterXand, exClusterPlain] ≠ [] := by
  have h1 := C8_cluster_union 0 [exClusterPlain]
  have h2 := C8_cluster_union 0 [exClusterXand, exClusterPlain]
  exact ⟨h1.1 (by decide), h2.2.1 (by decide), h2.2.2.2 (by decide)⟩

end Pnodes
